import Mathlib

/-!
Verification of the sshm command layer: the machine-readable `info` command
(`runInfo`, `maybeString`, `maybePort`), shell completion for host names, and
the direct-connect path (`connectToHost`).  The `internal/config` registry
(parser, merge engine, `GetSSHHostFromFile`, `QuickHostExistsInFile`) is not
part of the available sources, so it is modelled from the specification of the
configuration model (line classifier, block assembler, merge engine).
-/

namespace Sshm

/-- The effective, merged view of one host, as the `config.SSHHost` record:
plain string fields where the empty string encodes an unset value, a raw
string `Port`, ordered `Tags`, and the source location of the declaration. -/
structure SSHHost where
  Name : String
  Hostname : String
  User : String
  Port : String
  Identity : String
  ProxyJump : String
  ProxyCommand : String
  Options : String
  Tags : List String
  RemoteCommand : String
  RequestTTY : String
  SourceFile : String
  LineNumber : Nat
deriving Repr, DecidableEq

/-- JSON error object of the info response: `{code, message, details}`
(details is always null in the program, so it is omitted here). -/
structure infoError where
  Code : String
  Message : String
deriving Repr, DecidableEq

/-- JSON source object `{file, line}`. -/
structure infoSource where
  File : String
  Line : Nat
deriving Repr, DecidableEq

/-- JSON target object `{host, hostname, user, port}` with nullable fields. -/
structure infoTarget where
  Host : String
  Hostname : Option String
  User : Option String
  Port : Option Int
deriving Repr, DecidableEq

/-- JSON result object of the info response. -/
structure infoResult where
  CanonicalName : String
  Target : infoTarget
  IdentityFile : Option String
  ProxyJump : Option String
  ProxyCommand : Option String
  Options : Option String
  Tags : List String
  RemoteCommand : Option String
  RequestTTY : Option String
  Source : Option infoSource
deriving Repr, DecidableEq

/-- Top-level JSON document written by the info command. -/
structure infoResponse where
  Schema : String
  OK : Bool
  Hostname : String
  Result : Option infoResult
  Error : Option infoError
deriving Repr, DecidableEq

/-- Bool view of an `Except` value: `true` exactly on `ok`. -/
def isOkResult {ε α : Type} : Except ε α → Bool
  | .ok _ => true
  | .error _ => false

/-- Go `strings.Contains s sub`: `sub` occurs as a contiguous substring. -/
def goContains (s sub : String) : Bool := decide (sub.data <:+: s.data)

/-- Go `strings.HasPrefix s pre`, on the character sequence. -/
def goStartsWith (s pre : String) : Bool := pre.data.isPrefixOf s.data

/-- Go `strings.TrimSpace`: drop leading and trailing whitespace characters. -/
def goTrimSpace (s : String) : String :=
  String.mk
    (((s.data.dropWhile Char.isWhitespace).reverse.dropWhile Char.isWhitespace).reverse)

/-- Lowercase one character (ASCII range, as exercised by the tests). -/
def goLowerChar (c : Char) : Char :=
  if c.toNat ≥ 65 ∧ c.toNat ≤ 90 then Char.ofNat (c.toNat + 32) else c

/-- Go `strings.ToLower`, character by character. -/
def goToLower (s : String) : String := String.mk (s.data.map goLowerChar)

/-- Split a character list at every separator position chosen by `p`; the
pieces between separators are returned in order, empty pieces included. -/
def splitPred (p : Char → Bool) : List Char → List (List Char)
  | [] => [[]]
  | c :: cs =>
    let r := splitPred p cs
    if p c then [] :: r
    else
      match r with
      | [] => [[c]]
      | h :: t => (c :: h) :: t

/-- All-decimal-digit parse of a nonempty character list (`strconv` core). -/
def parseDecNat (cs : List Char) : Option Nat :=
  if cs = [] then none
  else if cs.all Char.isDigit then
    some (cs.foldl (fun acc c => acc * 10 + (c.toNat - 48)) 0)
  else none

/-- Go `strconv.Atoi`: optional sign, decimal digits, and the 64-bit range
check (the bounds are the literals for -2^63 and 2^63 - 1). -/
def goAtoi (s : String) : Option Int :=
  let signed : Option Int :=
    match s.data with
    | '+' :: rest => (parseDecNat rest).map Int.ofNat
    | '-' :: rest => (parseDecNat rest).map (fun n => -(n : Int))
    | cs => (parseDecNat cs).map Int.ofNat
  match signed with
  | some n =>
    if -9223372036854775808 ≤ n ∧ n ≤ 9223372036854775807 then some n else none
  | none => none

/-- `maybeString` from info.go: trim whitespace, map empty to null. -/
def maybeString (v : String) : Option String :=
  let trimmed := goTrimSpace v
  if trimmed = "" then none else some trimmed

/-- `maybePort` from info.go: empty after trimming means unset (null); a
nonempty value must parse as a decimal integer, otherwise an error. -/
def maybePort (v : String) : Except String (Option Int) :=
  let trimmed := goTrimSpace v
  if trimmed = "" then .ok none
  else
    match goAtoi trimmed with
    | none => .error "invalid syntax"
    | some port => .ok (some port)

/-- `runInfo` from info.go, with the `config.GetSSHHost(FromFile)` lookup
passed in as its result (runInfo observes only the host record or the
rendered error message).  Returns the process exit code together with the
JSON document written to the output stream. -/
def runInfo (hostnameArg : String) (lookup : Except String SSHHost) :
    Nat × infoResponse :=
  let base : infoResponse :=
    { Schema := "sshm.info.v1", OK := false, Hostname := hostnameArg,
      Result := none, Error := none }
  match lookup with
  | .error msg =>
    if goContains msg "not found" then
      (2, { base with Error := some { Code := "NOT_FOUND", Message := msg } })
    else
      (1, { base with Error := some { Code := "CONFIG_ERROR", Message := msg } })
  | .ok host =>
    match maybePort host.Port with
    | .error _ =>
      let e : infoError :=
        { Code := "CONFIG_ERROR", Message := "invalid port in host configuration" }
      (1, { base with Error := some e })
    | .ok port =>
      let target : infoTarget :=
        { Host := hostnameArg, Hostname := maybeString host.Hostname,
          User := maybeString host.User, Port := port }
      let src : infoSource := { File := host.SourceFile, Line := host.LineNumber }
      let res : infoResult :=
        { CanonicalName := host.Name, Target := target,
          IdentityFile := maybeString host.Identity,
          ProxyJump := maybeString host.ProxyJump,
          ProxyCommand := maybeString host.ProxyCommand,
          Options := maybeString host.Options,
          Tags := host.Tags,
          RemoteCommand := maybeString host.RemoteCommand,
          RequestTTY := maybeString host.RequestTTY,
          Source := some src }
      (0, { base with OK := true, Result := some res })

/-- Cobra shell-completion directive values used by the program. -/
inductive ShellCompDirective where
  | noFileComp
  | compError
deriving Repr, DecidableEq

/-- `infoCmd.ValidArgsFunction` from info.go: with a host argument already
present return nothing; on a parse error signal an error directive; else
collect the names whose lowercase form starts with the lowercase partial
argument, preserving host order. -/
def infoValidArgs (args : List String)
    (parsed : Except String (List SSHHost)) (toComplete : String) :
    List String × ShellCompDirective :=
  if args ≠ [] then ([], .noFileComp)
  else
    match parsed with
    | .error _ => ([], .compError)
    | .ok hosts =>
      let toCompleteLower := goToLower toComplete
      (hosts.foldl
        (fun acc host =>
          if goStartsWith (goToLower host.Name) toCompleteLower then
            acc ++ [host.Name]
          else acc) [],
       .noFileComp)

/-- Argument vector built by `connectToHost` in root.go for the external
ssh client: `-F` plus the config path when overridden, `-t` when a TTY is
forced, the host name, then the remote command tokens. -/
def sshArgs (cfgFile : String) (forceTTY : Bool) (hostName : String)
    (remoteCommand : List String) : List String :=
  let args : List String := []
  let args := if cfgFile ≠ "" then args ++ ["-F", cfgFile] else args
  let args := if forceTTY then args ++ ["-t"] else args
  let args := args ++ [hostName]
  let args := if remoteCommand ≠ [] then args ++ remoteCommand else args
  args

/-- Observable events of the direct-connect path, in program order. -/
inductive ConnectEvent where
  | fatalError (msg : String)
  | notFoundMessage (name : String)
  | exitProcess (code : Nat)
  | historyWarning (msg : String)
  | recordHistory (name : String)
  | spawnSSH (args : List String)
deriving Repr, DecidableEq

/-- `connectToHost` from root.go as the ordered trace of its effects: a
failing existence probe is fatal; an absent host prints an error and exits
with status 1 before any history or ssh work; otherwise history recording is
attempted (a failure only warns) and ssh is spawned with `sshArgs`. -/
def connectToHost (hostName : String) (remoteCommand : List String)
    (cfgFile : String) (forceTTY : Bool)
    (existsCheck : Except String Bool) (history : Except String Unit) :
    List ConnectEvent :=
  match existsCheck with
  | .error e => [.fatalError e]
  | .ok false => [.notFoundMessage hostName, .exitProcess 1]
  | .ok true =>
    (match history with
     | .error e => [.historyWarning e]
     | .ok _ => [.recordHistory hostName]) ++
    [.spawnSSH (sshArgs cfgFile forceTTY hostName remoteCommand)]

/-- Modelled from the spec: the `internal/config` line classifier is not in
the available sources.  Kinds of one classified config line. -/
inductive LineKind where
  | blank
  | comment
  | tagComment (tags : List String)
  | hostDecl (patterns : List String)
  | directive (keyword : String) (value : String)
deriving Repr, DecidableEq

/-- Split a string on whitespace runs into nonempty tokens. -/
def splitWhitespace (s : String) : List String :=
  ((splitPred Char.isWhitespace s.data).map String.mk).filter (fun t => t ≠ "")

/-- Parse the comma-separated tag list of a tag comment: trim each entry and
drop empty entries. -/
def parseTagList (s : String) : List String :=
  (((splitPred (fun c => c = ',') s.data).map
      (fun l => goTrimSpace (String.mk l))).filter (fun t => t ≠ ""))

/-- Modelled from the spec: the `internal/config` line classifier is not in
the available sources.  Blank lines, comments (with the tag-comment
convention, case-insensitive on the Tags keyword), `Host` declarations
(case-insensitive keyword, patterns split on whitespace), and directives
(keyword plus trimmed remainder). -/
def classifyLine (line : String) : LineKind :=
  let t := goTrimSpace line
  if t = "" then .blank
  else if goStartsWith t "#" then
    let rest := goTrimSpace (String.mk (t.data.drop 1))
    if goStartsWith (goToLower rest) "tags:" then
      .tagComment (parseTagList (String.mk (rest.data.drop 5)))
    else .comment
  else
    let kw := String.mk (t.data.takeWhile (fun c => !c.isWhitespace))
    let value := goTrimSpace (String.mk (t.data.drop kw.data.length))
    if goToLower kw = "host" then .hostDecl (splitWhitespace value)
    else .directive kw value

/-- Modelled from the spec: one `Host` block with its pattern list, attached
tags, declaration line number, and ordered directive lines. -/
structure RawBlock where
  patterns : List String
  tags : List String
  line : Nat
  directives : List (String × String)
deriving Repr, DecidableEq

/-- Emit the block under construction, if any. -/
def closeBlock : Option RawBlock → List RawBlock
  | none => []
  | some b => [b]

/-- Modelled from the spec: the block assembler is not in the available
sources.  Walks numbered classified lines in order; a tag comment is pending
until consumed by the next `Host` declaration, with blank lines tolerated in
between and any other line discarding it; directives before the first `Host`
declaration are ignored. -/
def assembleFrom : List (Nat × LineKind) → List String → Option RawBlock → List RawBlock
  | [], _, cur => closeBlock cur
  | (ln, k) :: rest, pending, cur =>
    match k with
    | .blank => assembleFrom rest pending cur
    | .comment => assembleFrom rest [] cur
    | .tagComment tags => assembleFrom rest tags cur
    | .hostDecl pats =>
      closeBlock cur ++ assembleFrom rest []
        (some { patterns := pats, tags := pending, line := ln, directives := [] })
    | .directive kw v =>
      match cur with
      | none => assembleFrom rest [] none
      | some b =>
        assembleFrom rest [] (some { b with directives := b.directives ++ [(kw, v)] })

/-- Classify every line of the config text (1-based line numbers) and
assemble the ordered block sequence. -/
def parseBlocksOfText (text : String) : List RawBlock :=
  let lines := (splitPred (fun c => c = '\n') text.data).map String.mk
  assembleFrom (lines.enum.map (fun p => (p.1 + 1, classifyLine p.2))) [] none

/-- Fuel-indexed glob matcher (structural recursion on the fuel, which the
wrapper supplies in sufficient amount: every step shortens the pattern or the
name): `*` matches any run of characters, `?` exactly one character. -/
def globMatchFuel : Nat → List Char → List Char → Bool
  | 0, _, _ => false
  | fuel + 1, pats, s =>
    match pats, s with
    | [], [] => true
    | [], _ :: _ => false
    | '*' :: ps, [] => globMatchFuel fuel ps []
    | '*' :: ps, c :: cs =>
      globMatchFuel fuel ps (c :: cs) || globMatchFuel fuel ('*' :: ps) cs
    | '?' :: _, [] => false
    | '?' :: ps, _ :: cs => globMatchFuel fuel ps cs
    | _ :: _, [] => false
    | p :: ps, c :: cs => (p = c) && globMatchFuel fuel ps cs

/-- Glob match of a pattern over a name. -/
def globMatch (pats s : List Char) : Bool :=
  globMatchFuel (pats.length + s.length + 1) pats s

/-- A pattern is literal when it has no glob metacharacters and no leading
negation mark. -/
def isLiteralPattern (p : String) : Bool :=
  !(goStartsWith p "!") && !(p.data.any (fun c => c = '*' || c = '?'))

/-- A pattern list declares a name literally when it contains the name
verbatim as a literal pattern. -/
def declaresLiterally (patterns : List String) (name : String) : Bool :=
  patterns.any (fun p => p = name && isLiteralPattern p)

/-- Modelled from the spec: block applicability of the merge engine.  A
negated pattern matching the name excludes the block entirely; otherwise the
block applies when any positive pattern glob-matches the name. -/
def blockApplies (b : RawBlock) (name : String) : Bool :=
  !(b.patterns.any (fun p => goStartsWith p "!" && globMatch (p.data.drop 1) name.data)) &&
  (b.patterns.any (fun p => !(goStartsWith p "!") && globMatch p.data name.data))

/-- Modelled from the spec: first-match-wins field resolution.  Walk blocks
in file order; the first applicable block whose directive list contains the
keyword (first occurrence inside the block) supplies the value; otherwise the
field stays unset, encoded as the empty string. -/
def resolveField : List RawBlock → String → String → String
  | [], _, _ => ""
  | b :: rest, name, key =>
    if blockApplies b name then
      match b.directives.find? (fun d => goToLower d.1 = key) with
      | some d => d.2
      | none => resolveField rest name key
    else resolveField rest name key

/-- Modelled from the spec: the structured error kinds of the registry that
are relevant to a single-host lookup. -/
inductive LookupError where
  | notFound (name : String)
  | parseFailure (line : Nat) (reason : String)
deriving Repr, DecidableEq

/-- Kind classifier of a lookup error, ignoring its contextual text. -/
inductive LookupErrorKind where
  | notFoundKind
  | configKind
deriving Repr, DecidableEq

/-- Kind of a lookup error. -/
def lookupErrorKind : LookupError → LookupErrorKind
  | .notFound _ => .notFoundKind
  | .parseFailure _ _ => .configKind

/-- Modelled from the spec: the rendered error message the command layer
observes (the not-found message is fixed by the behaviour the info tests
exercise: it contains the words "not found"). -/
def renderLookupError : LookupError → String
  | .notFound name => "host " ++ name ++ " not found in SSH config"
  | .parseFailure _ reason => reason

/-- Modelled from the spec: `config.GetSSHHostFromFile` is not in the
available sources.  The home block is the first block declaring the name
literally; without one the lookup fails with a not-found error; fields merge
first-match-wins across applicable blocks, tags and the source line come from
the home block, and the port stays a raw string. -/
def GetSSHHostFromFile (name path text : String) : Except LookupError SSHHost :=
  let blocks := parseBlocksOfText text
  match blocks.find? (fun b => declaresLiterally b.patterns name) with
  | none => .error (.notFound name)
  | some home =>
    .ok { Name := name,
          Hostname := resolveField blocks name "hostname",
          User := resolveField blocks name "user",
          Port := resolveField blocks name "port",
          Identity := resolveField blocks name "identityfile",
          ProxyJump := resolveField blocks name "proxyjump",
          ProxyCommand := resolveField blocks name "proxycommand",
          Options := resolveField blocks name "options",
          Tags := home.tags,
          RemoteCommand := resolveField blocks name "remotecommand",
          RequestTTY := resolveField blocks name "requesttty",
          SourceFile := path,
          LineNumber := home.line }

/-- Modelled from the spec: `config.QuickHostExistsInFile` is not in the
available sources.  A single scan answering whether any block declares the
name literally, without materialising a merged record. -/
def QuickHostExistsInFile (name _path text : String) : Bool :=
  (parseBlocksOfText text).any (fun b => declaresLiterally b.patterns name)

/-- The info command run against a config file's text: the lookup feeds
`runInfo`, which observes a failure only through its rendered message. -/
def runInfoFile (hostnameArg path text : String) : Nat × infoResponse :=
  runInfo hostnameArg
    (Except.mapError renderLookupError (GetSSHHostFromFile hostnameArg path text))

/-- Bool discriminator of history-recording events. -/
def isRecordEvent : ConnectEvent → Bool
  | .recordHistory _ => true
  | _ => false

/-- Bool discriminator of ssh-spawn events. -/
def isSpawnEvent : ConnectEvent → Bool
  | .spawnSSH _ => true
  | _ => false

/-- Concrete host record used to instantiate hypotheses of the theorems. -/
def sampleHost : SSHHost :=
  { Name := "x", Hostname := " 10.0.0.1 ", User := "", Port := "22",
    Identity := "~/.ssh/id", ProxyJump := " ", ProxyCommand := "",
    Options := "", Tags := ["prod"], RemoteCommand := "", RequestTTY := "",
    SourceFile := "f", LineNumber := 1 }

/-- Null-ness of `maybeString` is decided by the trimmed value alone. -/
theorem maybeString_isNone (v : String) :
    (maybeString v).isNone = (goTrimSpace v == "") := by
  unfold maybeString
  by_cases hv : goTrimSpace v = "" <;> simp [hv]

/-- Folding the completion loop from any accumulator appends exactly the
filtered names in order. -/
theorem completion_foldl_eq (pre : String) (hosts : List SSHHost)
    (acc : List String) :
    hosts.foldl (fun a host =>
        if goStartsWith (goToLower host.Name) pre then a ++ [host.Name] else a) acc =
      acc ++ (hosts.map SSHHost.Name).filter
        (fun n => goStartsWith (goToLower n) pre) := by
  induction hosts generalizing acc with
  | nil => simp
  | cons hd tl ih =>
    by_cases hp : goStartsWith (goToLower hd.Name) pre = true <;>
      simp [List.filter_cons, hp, ih]

/-- C1: the info command exits with status 0 exactly when the host lookup
and the port parse succeed, with status 2 exactly when the emitted JSON error
code is NOT_FOUND, with status 1 exactly when the emitted JSON error code is
CONFIG_ERROR, and every emitted error code lies in
{NOT_FOUND, CONFIG_ERROR, INTERNAL}. -/
theorem runInfo_exit_status (h : String) (lookup : Except String SSHHost) :
    ((runInfo h lookup).1 = 0 ↔
      ∃ host, lookup = .ok host ∧ isOkResult (maybePort host.Port) = true) ∧
    ((runInfo h lookup).1 = 2 ↔
      ∃ e, (runInfo h lookup).2.Error = some e ∧ e.Code = "NOT_FOUND") ∧
    ((runInfo h lookup).1 = 1 ↔
      ∃ e, (runInfo h lookup).2.Error = some e ∧ e.Code = "CONFIG_ERROR") ∧
    ((runInfo h lookup).2.Error).all
      (fun e => e.Code == "NOT_FOUND" || e.Code == "CONFIG_ERROR" ||
        e.Code == "INTERNAL") = true := by
  cases lookup with
  | error msg =>
    by_cases hc : goContains msg "not found" = true
    · simp [runInfo, hc]
    · simp [runInfo, hc]
  | ok host =>
    cases hp : maybePort host.Port with
    | error e => simp [runInfo, hp, isOkResult]
    | ok port => simp [runInfo, hp, isOkResult]

/-- C2: every info document carries the fixed schema identifier, echoes the
requested host name, its success flag equals presence of the result object,
exactly one of the result and error objects is non-null, and a present result
always carries a source object. -/
theorem runInfo_document_shape (h : String) (lookup : Except String SSHHost) :
    (runInfo h lookup).2.Schema = "sshm.info.v1" ∧
    (runInfo h lookup).2.Hostname = h ∧
    ((runInfo h lookup).2.OK = ((runInfo h lookup).2.Result).isSome) ∧
    (((runInfo h lookup).2.Result).isSome = ((runInfo h lookup).2.Error).isNone) ∧
    ((runInfo h lookup).2.Result).all (fun r => r.Source.isSome) = true := by
  cases lookup with
  | error msg =>
    by_cases hc : goContains msg "not found" = true
    · simp [runInfo, hc]
    · simp [runInfo, hc]
  | ok host =>
    cases hp : maybePort host.Port with
    | error e => simp [runInfo, hp]
    | ok port => simp [runInfo, hp]

/-- C3: the quick existence check agrees with success of the full lookup for
every host name and config text (registry modelled from the spec). -/
theorem quickExists_iff_get_ok (name path text : String) :
    QuickHostExistsInFile name path text =
      isOkResult (GetSSHHostFromFile name path text) := by
  unfold QuickHostExistsInFile GetSSHHostFromFile
  cases hf : (parseBlocksOfText text).find?
      (fun b => declaresLiterally b.patterns name) with
  | none =>
    simp only [hf, isOkResult]
    exact List.any_eq_false.mpr (by simpa using List.find?_eq_none.mp hf)
  | some b =>
    simp only [hf, isOkResult]
    have h1 := List.find?_some hf
    have h2 := List.mem_of_find?_eq_some hf
    exact List.any_eq_true.mpr ⟨b, h2, h1⟩

/-- C4 counterexample: two lookup errors of the same structured kind (both
configuration failures, neither a not-found) are classified differently by
the info command — the one whose message happens to contain the words "not
found" is reported as NOT_FOUND with exit status 2, the other as
CONFIG_ERROR with exit status 1.  Classification therefore depends on the
message text, not only on the error's kind. -/
theorem classification_uses_message_text :
    lookupErrorKind (.parseFailure 3 "include file not found") =
      lookupErrorKind (.parseFailure 3 "bad delimiter") ∧
    lookupErrorKind (.parseFailure 3 "include file not found") ≠
      LookupErrorKind.notFoundKind ∧
    (runInfo "x" (.error (renderLookupError
      (.parseFailure 3 "include file not found")))).1 = 2 ∧
    ((runInfo "x" (.error (renderLookupError
      (.parseFailure 3 "include file not found")))).2.Error).all
        (fun e => e.Code == "NOT_FOUND") = true ∧
    (runInfo "x" (.error (renderLookupError
      (.parseFailure 3 "bad delimiter")))).1 = 1 := by
  refine ⟨rfl, by decide, by decide, by decide, by decide⟩

/-- C4 amended: the info command classifies a lookup failure by substring
matching on the rendered error message alone — NOT_FOUND with exit 2 when
the message contains "not found", CONFIG_ERROR with exit 1 otherwise — and
the message is passed through verbatim. -/
theorem classification_by_substring (h msg : String) :
    (runInfo h (.error msg)).1 = (if goContains msg "not found" then 2 else 1) ∧
    (runInfo h (.error msg)).2.Error =
      some { Code := if goContains msg "not found" then "NOT_FOUND"
                     else "CONFIG_ERROR",
             Message := msg } := by
  by_cases hc : goContains msg "not found" = true <;> simp [runInfo, hc]

/-- C5 counterexample: a host block that contains a `ProxyJump` directive
with an empty value and one that omits the directive entirely produce
byte-identical info documents (the field is null in both), while both runs
succeed with a result object present; a present-but-empty optional value is
not distinguished from an absent one. -/
theorem info_empty_vs_absent_indistinguishable :
    runInfoFile "x" "cfg" "Host x\nProxyJump\n" =
      runInfoFile "x" "cfg" "Host x\n" ∧
    ((runInfoFile "x" "cfg" "Host x\nProxyJump\n").2.Result).isSome = true ∧
    ((runInfoFile "x" "cfg" "Host x\nProxyJump\n").2.Result).all
      (fun r => r.ProxyJump.isNone) = true := by
  refine ⟨by decide, by decide, by decide⟩

/-- C5 amended: each optional string field of the result is the trimmed
value of the host record with empty mapped to null, so a field is null
exactly when its underlying string value trims to the empty string —
present-but-empty and absent (both encoded as the empty string) are
reported identically as null. -/
theorem runInfo_optional_fields (name : String) (host : SSHHost)
    (h : isOkResult (maybePort host.Port) = true) :
    ((runInfo name (.ok host)).2.Result).isSome = true ∧
    ((runInfo name (.ok host)).2.Result).all (fun r =>
      decide (r.Target.Hostname = maybeString host.Hostname) &&
      decide (r.Target.User = maybeString host.User) &&
      decide (r.IdentityFile = maybeString host.Identity) &&
      decide (r.ProxyJump = maybeString host.ProxyJump) &&
      decide (r.ProxyCommand = maybeString host.ProxyCommand) &&
      decide (r.Options = maybeString host.Options) &&
      decide (r.RemoteCommand = maybeString host.RemoteCommand) &&
      decide (r.RequestTTY = maybeString host.RequestTTY)) = true ∧
    (maybeString host.Hostname).isNone = (goTrimSpace host.Hostname == "") ∧
    (maybeString host.User).isNone = (goTrimSpace host.User == "") ∧
    (maybeString host.Identity).isNone = (goTrimSpace host.Identity == "") ∧
    (maybeString host.ProxyJump).isNone = (goTrimSpace host.ProxyJump == "") ∧
    (maybeString host.ProxyCommand).isNone = (goTrimSpace host.ProxyCommand == "") ∧
    (maybeString host.Options).isNone = (goTrimSpace host.Options == "") ∧
    (maybeString host.RemoteCommand).isNone = (goTrimSpace host.RemoteCommand == "") ∧
    (maybeString host.RequestTTY).isNone = (goTrimSpace host.RequestTTY == "") := by
  cases hp : maybePort host.Port with
  | error e => rw [hp] at h; simp [isOkResult] at h
  | ok port =>
    refine ⟨by simp [runInfo, hp], by simp [runInfo, hp], ?_, ?_, ?_, ?_, ?_, ?_, ?_, ?_⟩ <;>
      exact maybeString_isNone _

/-- C5 witness: the amended theorem instantiated at a concrete host whose
`ProxyJump` value is whitespace-only and therefore reported as null. -/
theorem runInfo_optional_fields_witness :
    isOkResult (maybePort sampleHost.Port) = true ∧
    (((runInfo "x" (.ok sampleHost)).2.Result).isSome = true ∧
      ((runInfo "x" (.ok sampleHost)).2.Result).all (fun r =>
        decide (r.Target.Hostname = maybeString sampleHost.Hostname) &&
        decide (r.Target.User = maybeString sampleHost.User) &&
        decide (r.IdentityFile = maybeString sampleHost.Identity) &&
        decide (r.ProxyJump = maybeString sampleHost.ProxyJump) &&
        decide (r.ProxyCommand = maybeString sampleHost.ProxyCommand) &&
        decide (r.Options = maybeString sampleHost.Options) &&
        decide (r.RemoteCommand = maybeString sampleHost.RemoteCommand) &&
        decide (r.RequestTTY = maybeString sampleHost.RequestTTY)) = true ∧
      (maybeString sampleHost.Hostname).isNone = (goTrimSpace sampleHost.Hostname == "") ∧
      (maybeString sampleHost.User).isNone = (goTrimSpace sampleHost.User == "") ∧
      (maybeString sampleHost.Identity).isNone = (goTrimSpace sampleHost.Identity == "") ∧
      (maybeString sampleHost.ProxyJump).isNone = (goTrimSpace sampleHost.ProxyJump == "") ∧
      (maybeString sampleHost.ProxyCommand).isNone = (goTrimSpace sampleHost.ProxyCommand == "") ∧
      (maybeString sampleHost.Options).isNone = (goTrimSpace sampleHost.Options == "") ∧
      (maybeString sampleHost.RemoteCommand).isNone = (goTrimSpace sampleHost.RemoteCommand == "") ∧
      (maybeString sampleHost.RequestTTY).isNone = (goTrimSpace sampleHost.RequestTTY == "")) :=
  ⟨by decide, runInfo_optional_fields "x" sampleHost (by decide)⟩

/-- C6: a host whose resolved port value is nonempty after trimming and not
a decimal integer makes the info command fail: exit status 1, a
port-specific CONFIG_ERROR error object, and no result object. -/
theorem runInfo_port_parse_error (name : String) (host : SSHHost)
    (h1 : goTrimSpace host.Port ≠ "") (h2 : goAtoi (goTrimSpace host.Port) = none) :
    (runInfo name (.ok host)).1 = 1 ∧
    (runInfo name (.ok host)).2.Error =
      some { Code := "CONFIG_ERROR",
             Message := "invalid port in host configuration" } ∧
    (runInfo name (.ok host)).2.Result = none := by
  have hp : maybePort host.Port = .error "invalid syntax" := by
    unfold maybePort
    simp [h1, h2]
  simp [runInfo, hp]

/-- C6 witness: the theorem instantiated at a host whose port value is the
non-numeric string "abc". -/
theorem runInfo_port_parse_error_witness :
    goTrimSpace ({ sampleHost with Port := "abc" } : SSHHost).Port ≠ "" ∧
    goAtoi (goTrimSpace ({ sampleHost with Port := "abc" } : SSHHost).Port) = none ∧
    ((runInfo "x" (.ok { sampleHost with Port := "abc" })).1 = 1 ∧
      (runInfo "x" (.ok { sampleHost with Port := "abc" })).2.Error =
        some { Code := "CONFIG_ERROR",
               Message := "invalid port in host configuration" } ∧
      (runInfo "x" (.ok { sampleHost with Port := "abc" })).2.Result = none) :=
  ⟨by decide, by decide,
    runInfo_port_parse_error "x" { sampleHost with Port := "abc" }
      (by decide) (by decide)⟩

/-- C7: shell completion returns exactly the host names whose lowercase form
has the lowercase partial argument as a prefix, preserving host order; the
empty partial argument yields every host name; a config with zero hosts
yields the empty list; and the directive never signals an error. -/
theorem infoValidArgs_prefix_complete (hosts : List SSHHost)
    (toComplete : String) :
    (infoValidArgs [] (.ok hosts) toComplete).1 =
      (hosts.map SSHHost.Name).filter
        (fun n => goStartsWith (goToLower n) (goToLower toComplete)) ∧
    (infoValidArgs [] (.ok hosts) "").1 = hosts.map SSHHost.Name ∧
    (infoValidArgs [] (.ok ([] : List SSHHost)) toComplete).1 = [] ∧
    (infoValidArgs [] (.ok hosts) toComplete).2 =
      ShellCompDirective.noFileComp := by
  refine ⟨?_, ?_, ?_, ?_⟩
  · simp [infoValidArgs, completion_foldl_eq]
  · have h1 : (infoValidArgs [] (.ok hosts) "").1 =
        (hosts.map SSHHost.Name).filter
          (fun n => goStartsWith (goToLower n) (goToLower "")) := by
      simp [infoValidArgs, completion_foldl_eq]
    have h2 : (goToLower "").data = [] := rfl
    rw [h1]
    exact List.filter_eq_self.mpr
      (fun a _ => by simp [goStartsWith, h2])
  · rfl
  · simp [infoValidArgs]

/-- C8: the external ssh client receives, in order, the config-file flag
when an override is present, the forced-TTY flag when requested, the host
name, and the remote command tokens. -/
theorem sshArgs_vector (cfgFile : String) (forceTTY : Bool)
    (hostName : String) (remoteCommand : List String) :
    sshArgs cfgFile forceTTY hostName remoteCommand =
      (if cfgFile ≠ "" then ["-F", cfgFile] else []) ++
      (if forceTTY then ["-t"] else []) ++ [hostName] ++ remoteCommand := by
  unfold sshArgs
  by_cases h1 : cfgFile = "" <;> cases forceTTY <;>
    by_cases h3 : remoteCommand = [] <;> simp [h1, h3]

/-- C9: when the quick existence check reports the host as not declared, the
direct-connect trace is exactly the not-found report followed by exit status
1 — no history-recording event and no ssh-spawn event ever occurs. -/
theorem connect_not_found_stops (hostName : String)
    (remoteCommand : List String) (cfgFile : String) (forceTTY : Bool)
    (history : Except String Unit) :
    connectToHost hostName remoteCommand cfgFile forceTTY (.ok false) history =
      [.notFoundMessage hostName, .exitProcess 1] ∧
    (connectToHost hostName remoteCommand cfgFile forceTTY
        (.ok false) history).all
      (fun ev => !isRecordEvent ev && !isSpawnEvent ev) = true :=
  ⟨rfl, rfl⟩

/-- C10: after a successful lookup the info command raises a port error
exactly for a value that is nonempty after trimming and fails the decimal
parse; it exits 0 with a result object exactly otherwise (so an empty or
whitespace-only port value succeeds), and any present result carries the
parsed port, which is null for the empty value. -/
theorem runInfo_port_behaviour (name : String) (host : SSHHost) :
    (((runInfo name (.ok host)).2.Error).isSome = true ↔
      (goTrimSpace host.Port ≠ "" ∧ goAtoi (goTrimSpace host.Port) = none)) ∧
    ((runInfo name (.ok host)).1 = 0 ↔
      (goTrimSpace host.Port = "" ∨
        (goAtoi (goTrimSpace host.Port)).isSome = true)) ∧
    (((runInfo name (.ok host)).2.Result).isSome = true ↔
      (goTrimSpace host.Port = "" ∨
        (goAtoi (goTrimSpace host.Port)).isSome = true)) ∧
    ((runInfo name (.ok host)).2.Result).all
      (fun r => decide (r.Target.Port = goAtoi (goTrimSpace host.Port))) =
        true := by
  by_cases ht : goTrimSpace host.Port = ""
  · have hp : maybePort host.Port = .ok none := by
      unfold maybePort
      simp [ht]
    have ha : goAtoi "" = none := rfl
    simp [runInfo, hp, ht, ha]
  · cases ha : goAtoi (goTrimSpace host.Port) with
    | none =>
      have hp : maybePort host.Port = .error "invalid syntax" := by
        unfold maybePort
        simp [ht, ha]
      simp [runInfo, hp, ht, ha]
    | some n =>
      have hp : maybePort host.Port = .ok (some n) := by
        unfold maybePort
        simp [ht, ha]
      simp [runInfo, hp, ht, ha]

end Sshm
